import Mathlib

/-!
# Verification of the Documind PDF-processing core

A shallow embedding of the pure logic of the repository's five backend
modules (`text_extractor.py`, `table_extractor.py`, `visual_extractor.py`,
`app.py`, `server.py`) together with proofs settling the specification
claims about them.

External capabilities (PDF parsing, the LLM, OCR, the Hough transform,
JSON decoding of the model reply) are modelled as explicit inputs; every
pure computation of the source is translated faithfully.  Python string
operations are modelled over `List Char` (ASCII reading of the Unicode
predicates), so every definition is executable.
-/

namespace Documind

/-! ## Python string primitives (modelled over `List Char`) -/

/-- Model of Python `str.strip()`: drop whitespace from both ends. -/
def stripChars (l : List Char) : List Char :=
  ((l.dropWhile Char.isWhitespace).reverse.dropWhile Char.isWhitespace).reverse

/-- Model of Python `str.strip()` on strings. -/
def pyStrip (s : String) : String :=
  String.mk (stripChars s.data)

/-- Helper for `pySplit`: accumulate the current word (reversed) and cut at
whitespace, discarding empty words, as Python `str.split()` does. -/
def pySplitAux : List Char → List Char → List (List Char)
  | [], acc => if acc.isEmpty then [] else [acc.reverse]
  | a :: rest, acc =>
    if a.isWhitespace then
      if acc.isEmpty then pySplitAux rest []
      else acc.reverse :: pySplitAux rest []
    else pySplitAux rest (a :: acc)

/-- Model of Python `str.split()` with no arguments: split on whitespace
runs, never producing empty words. -/
def pySplit (s : String) : List String :=
  (pySplitAux s.data []).map String.mk

/-- Helper for `pySplitOnChar`. -/
def splitOnCharAux (c : Char) : List Char → List Char → List (List Char)
  | [], acc => [acc.reverse]
  | a :: rest, acc =>
    if a = c then acc.reverse :: splitOnCharAux c rest []
    else splitOnCharAux c rest (a :: acc)

/-- Model of Python `str.split(sep)` for a one-character separator
(the source only splits on `"\n"` and `"."`): empty pieces are kept and
`"".split(sep) == [""]`. -/
def pySplitOnChar (c : Char) (s : String) : List String :=
  (splitOnCharAux c s.data []).map String.mk

/-- Model of Python `str.isupper()` (ASCII): at least one cased character
and every cased character is uppercase. -/
def pyIsUpper (s : String) : Bool :=
  s.data.any Char.isAlpha && s.data.all (fun c => !c.isAlpha || c.isUpper)

/-- Helper for `pyIsTitle`: scan remembering whether the previous character
was cased and whether any cased character was seen. -/
def pyIsTitleAux : List Char → Bool → Bool → Bool
  | [], _, found => found
  | c :: rest, prevCased, found =>
    if c.isUpper then
      if prevCased then false else pyIsTitleAux rest true true
    else if c.isLower then
      if prevCased then pyIsTitleAux rest true true else false
    else pyIsTitleAux rest false found

/-- Model of Python `str.istitle()` (ASCII): uppercase letters only follow
uncased characters, lowercase letters only follow cased ones, and at least
one cased character occurs. -/
def pyIsTitle (s : String) : Bool :=
  pyIsTitleAux s.data false false

/-- Substring occurrence on character lists, naive scan. -/
def containsSub : List Char → List Char → Bool
  | [], sub => sub.isEmpty
  | a :: t, sub => sub.isPrefixOf (a :: t) || containsSub t sub

/-- Model of Python `sub in s` (substring test). -/
def pyContainsStr (s sub : String) : Bool :=
  containsSub s.data sub.data

/-- Model of Python `s.endswith(suffix)`. -/
def pyEndsWith (s suffix : String) : Bool :=
  suffix.data.isSuffixOf s.data

/-- Model of Python `s.startswith(p)`. -/
def pyStartsWith (s p : String) : Bool :=
  p.data.isPrefixOf s.data

/-- Value of a digit run, as Python `int` on a decimal string. -/
def digitsToNat (l : List Char) : Nat :=
  l.foldl (fun n c => n * 10 + (c.toNat - 48)) 0

/-- Model of Python `sep.join(parts)`. -/
def pyJoin (sep : String) : List String → String
  | [] => ""
  | [x] => x
  | x :: y :: t => x ++ sep ++ pyJoin sep (y :: t)

/-! ## `text_extractor.py` -/

/-- The `any(char.isdigit() and char + "." in line for char in "123456789")`
test shared by `_is_heading` and `_determine_heading_level`. -/
def digitDotCheck (line : String) : Bool :=
  "123456789".data.any (fun c => c.isDigit && pyContainsStr line (String.mk [c, '.']))

/-- Body of `TextExtractor._is_heading` after the `line = line.strip()`
re-strip, evaluated on the stripped line.  Python's short-circuit `or`
chain is rendered as nested conditionals; `none` models the `IndexError`
raised by `line[0]` when the stripped line is empty and every earlier
disjunct was false. -/
def headingBody (line : String) : Option Bool :=
  if (pySplit line).length ≤ 10 then
    if pyIsUpper line then some true
    else if pyIsTitle line then some true
    else if digitDotCheck line then some true
    else if pyEndsWith line ":" then some true
    else if line.length < 100 then
      match line.data.head? with
      | some c => some c.isUpper
      | none => none
    else some false
  else some false

/-- Source `TextExtractor._is_heading`:  `if not line: return False`, then the
heading test on the stripped line.  `none` models an uncaught
`IndexError`. -/
def pyIsHeading (line : String) : Option Bool :=
  if line = "" then some false else headingBody (pyStrip line)

/-- Source `TextExtractor._determine_heading_level`. -/
def headingLevel (heading : String) : Nat :=
  let h := pyStrip heading
  if digitDotCheck h then
    ((pySplitOnChar '.' h).filter
      (fun p => p ≠ "" && (p.data.headD ' ').isDigit)).length
  else if pyIsUpper h then 1
  else if pyIsTitle h && h.length < 50 then 2
  else 3

/-- A structured block emitted by the Text Structurer. -/
inductive Block where
  | heading (text : String) (level : Nat)
  | paragraph (text : String)
  deriving DecidableEq

/-- The text carried by a block. -/
def blockText : Block → String
  | .heading t _ => t
  | .paragraph t => t

/-- Flushing the paragraph buffer: one paragraph block whose text joins the
buffered lines with single spaces, or nothing if the buffer is empty. -/
def flushBuf (buf : List String) : List Block :=
  if buf.isEmpty then [] else [Block.paragraph (pyJoin " " buf)]

/-- The per-page line loop of `TextExtractor.async_extract` without the
final flush: returns the blocks emitted so far and the remaining paragraph
buffer.  `none` models an uncaught exception from `_is_heading`. -/
def stepPage : List String → List String → Option (List Block × List String)
  | [], buf => some ([], buf)
  | l :: ls, buf =>
    let line := pyStrip l
    if line = "" then
      (stepPage ls []).map (fun p => (flushBuf buf ++ p.1, p.2))
    else
      match pyIsHeading line with
      | none => none
      | some true =>
          (stepPage ls []).map
            (fun p => (flushBuf buf ++ Block.heading line (headingLevel line) :: p.1, p.2))
      | some false => stepPage ls (buf ++ [line])

/-- Page processing of `TextExtractor.async_extract`: the line loop
followed by the flush of any remaining paragraph text. -/
def processPage (lines : List String) : Option (List Block) :=
  (stepPage lines []).map (fun p => p.1 ++ flushBuf p.2)

/-! ## `table_extractor.py`

The LLM is an external capability: each call is modelled by its outcome,
an exception (`exn`) or a reply whose `json.loads` result is either a
parsed JSON value or a decode failure (`reply none`). -/

/-- A JSON value, the result of a successful `json.loads`. -/
inductive JsonVal where
  | null
  | bool (b : Bool)
  | num (n : Int)
  | str (s : String)
  | arr (elems : List JsonVal)
  | obj (fields : List (String × JsonVal))

/-- The `structured_data` dictionary built by `_process_table_with_llm`:
the parsed model reply, the deterministic fallback
`{raw_text: ..., rows: ...}`, or the `{error: ...}` dictionary of the
exception handler. -/
inductive SData where
  | parsed (j : JsonVal)
  | fallback (raw_text : String) (rows : List String)
  | errorData (msg : String)

/-- Outcome of one LLM invocation in `_process_table_with_llm`. -/
inductive LlmOutcome where
  | exn (msg : String)
  | reply (parsed : Option JsonVal)

/-- The `{success, structured_data}` dictionary returned by
`_process_table_with_llm`. -/
structure LlmResult where
  success : Bool
  structured_data : SData

/-- Source `TableExtractor._process_table_with_llm`: parse success keeps the model
JSON; a `json.JSONDecodeError` falls back to
`{raw_text: table_text, rows: table_text.split("\n")}` with success; an
exception in the call itself reports failure. -/
def processTableWithLLM (tableText : String) (outcome : LlmOutcome) : LlmResult :=
  match outcome with
  | .exn m => ⟨false, .errorData m⟩
  | .reply (some j) => ⟨true, .parsed j⟩
  | .reply none => ⟨true, .fallback tableText (pySplitOnChar '\n' tableText)⟩

/-- A raw table grid as produced by `pdfplumber`: rows of cells, a cell
being a string or `None`. -/
abbrev Grid := List (List (Option String))

/-- Cell normalization of `_format_table_for_llm`:
`str(cell).strip() if cell else ""`. -/
def cleanCell (cell : Option String) : String :=
  match cell with
  | some s => if s = "" then "" else pyStrip s
  | none => ""

/-- Source `TableExtractor._format_table_for_llm`: trim cells, drop fully blank
rows, join cells with `" | "` and rows with `"\n"`. -/
def formatTableForLLM (table : Grid) : String :=
  pyJoin "\n"
    ((table.map (fun row => row.map cleanCell)).filterMap
      (fun cleaned =>
        if cleaned.any (fun c => c ≠ "") then
          some (pyJoin " | " cleaned)
        else none))

/-- A Table Record as appended by `TableExtractor.async_extract`. -/
structure TableRecord where
  page_number : Nat
  table_number : Nat
  structured_data : SData
  row_count : Nat
  column_count : Nat

/-- The inner table loop of `TableExtractor.async_extract` over one page's
raw tables: `table_num` is 1-based and advances over skipped tables too
(`enumerate`); a table that is the empty list is skipped (`if not table`);
otherwise it is normalized, sent to the LLM, and recorded iff the LLM step
reported success. -/
def pageTables (llm : String → LlmOutcome) (pageNum : Nat) :
    Nat → List Grid → List TableRecord
  | _, [] => []
  | tn, t :: ts =>
    let rest := pageTables llm pageNum (tn + 1) ts
    if t.isEmpty then rest
    else
      let text := formatTableForLLM t
      let st := processTableWithLLM text (llm text)
      if st.success then
        { page_number := pageNum, table_number := tn,
          structured_data := st.structured_data,
          row_count := t.length,
          column_count := (t.headD []).length } :: rest
      else rest

/-- The page loop of `TableExtractor.async_extract`: pages are 1-based. -/
def tablesOfPages (llm : String → LlmOutcome) :
    Nat → List (List Grid) → List TableRecord
  | _, [] => []
  | pn, p :: ps => pageTables llm pn 1 p ++ tablesOfPages llm (pn + 1) ps

/-- Source `TableExtractor.async_extract` on the per-page raw grids extracted by
`pdfplumber` (the extraction itself is external input). -/
def asyncExtractTables (llm : String → LlmOutcome) (pages : List (List Grid)) :
    List TableRecord :=
  tablesOfPages llm 1 pages

/-! ## `visual_extractor.py`

A detected Hough line segment carries its endpoint coordinates and the
angle `abs(arctan2(y2-y1, x2-x1) * 180 / pi)` computed by numpy; the
transcendental angle computation is external numeric input, supplied as an
exact rational. OCR calls are external: each is an outcome, `none` for an
exception (which `_extract_text_from_region` converts to `""`). -/

/-- A line segment from `cv2.HoughLinesP` with its computed angle. -/
structure Seg where
  x1 : Int
  y1 : Int
  x2 : Int
  y2 : Int
  angle : ℚ
  deriving DecidableEq

/-- Condition `angle < 10 or angle > 170` — the horizontal band. -/
def isHorizontalSeg (s : Seg) : Bool :=
  s.angle < 10 || s.angle > 170

/-- Condition `80 < angle < 100` — the vertical band. -/
def isVerticalSeg (s : Seg) : Bool :=
  80 < s.angle && s.angle < 100

/-- The line-orientation loop of `_detect_and_process_graph`: horizontal
first, `elif` vertical, otherwise discarded; order preserved. -/
def classifyLines : List Seg → List Seg × List Seg
  | [] => ([], [])
  | s :: rest =>
    let hv := classifyLines rest
    if isHorizontalSeg s then (s :: hv.1, hv.2)
    else if isVerticalSeg s then (hv.1, s :: hv.2)
    else hv

/-- Source `VisualExtractor._determine_graph_type`: mean adjacent spacing of
vertical x1-coordinates vs horizontal y1-coordinates (exact rational
model of the numpy float means); `grid_chart` if they differ by less
than 10, else `bar_chart` when there are more vertical lines, else
`line_graph`.  In the call context both lists have at least two
elements, so the means are well defined and the `except` handler that
returns `"unknown_graph_type"` is unreachable. -/
def determineGraphType (horizontal vertical : List Seg) : String :=
  let vDiffs := (vertical.zip vertical.tail).map
    (fun p => |(p.1.x1 : ℚ) - (p.2.x1 : ℚ)|)
  let hDiffs := (horizontal.zip horizontal.tail).map
    (fun p => |(p.1.y1 : ℚ) - (p.2.y1 : ℚ)|)
  let vSpacing := vDiffs.sum / (vDiffs.length : ℚ)
  let hSpacing := hDiffs.sum / (hDiffs.length : ℚ)
  if |vSpacing - hSpacing| < 10 then "grid_chart"
  else if vertical.length > horizontal.length then "bar_chart"
  else "line_graph"

/-- The dictionary returned by `_detect_and_process_graph` on success. -/
structure GraphData where
  graph_type : String
  horizontal_axes : Nat
  vertical_axes : Nat
  deriving DecidableEq

/-- Source `VisualExtractor._detect_and_process_graph` on the Hough output
(`none` when `HoughLinesP` returned `None` or the cv2 pipeline raised):
classify orientations, and report a graph iff at least two horizontal and
at least two vertical lines were found. -/
def detectAndProcessGraph (lines : Option (List Seg)) : Option GraphData :=
  match lines with
  | none => none
  | some ls =>
    let hv := classifyLines ls
    if 2 ≤ hv.1.length ∧ 2 ≤ hv.2.length then
      some ⟨determineGraphType hv.1 hv.2, hv.1.length, hv.2.length⟩
    else none

/-- Source `VisualExtractor._extract_text_from_region`: the stripped OCR output,
or `""` if the OCR call raised. -/
def extractTextFromRegion (ocr : Option String) : String :=
  match ocr with
  | some s => pyStrip s
  | none => ""

/-- A recorded graph element. -/
structure GraphRecord where
  page_number : Nat
  graph_data : GraphData
  extracted_text : String
  type : String
  deriving DecidableEq

/-- A recorded plain-image element. -/
structure ImageRecord where
  page_number : Nat
  extracted_text : String
  word_count : Nat
  deriving DecidableEq

/-- The statistics dictionary of `VisualExtractor.async_extract`. -/
structure VisualStats where
  total_images : Nat
  total_graphs : Nat
  total_text_extracted : Nat
  deriving DecidableEq

/-- The `visual_elements` dictionary. -/
structure VisualElems where
  images : List ImageRecord
  graphs : List GraphRecord
  statistics : VisualStats
  deriving DecidableEq

/-- External inputs for one rasterized page: the Hough line detection
result and the two possible OCR call outcomes. -/
structure PageInput where
  houghLines : Option (List Seg)
  graphOcr : Option String
  textOcr : Option String
  deriving DecidableEq

/-- The page loop of `VisualExtractor.async_extract`: a graph page records
a graph element and its word count; otherwise the page is OCRed as a plain
image and recorded only when the (re-stripped) text is non-empty. -/
def visualLoop : Nat → List PageInput → VisualElems
  | _, [] => ⟨[], [], ⟨0, 0, 0⟩⟩
  | pageNum, p :: ps =>
    let rest := visualLoop (pageNum + 1) ps
    match detectAndProcessGraph p.houghLines with
    | some gd =>
      let gtext := extractTextFromRegion p.graphOcr
      ⟨rest.images,
       ⟨pageNum, gd, gtext, gd.graph_type⟩ :: rest.graphs,
       ⟨rest.statistics.total_images,
        rest.statistics.total_graphs + 1,
        rest.statistics.total_text_extracted + (pySplit gtext).length⟩⟩
    | none =>
      let otext := extractTextFromRegion p.textOcr
      if pyStrip otext ≠ "" then
        ⟨⟨pageNum, otext, (pySplit otext).length⟩ :: rest.images,
         rest.graphs,
         ⟨rest.statistics.total_images + 1,
          rest.statistics.total_graphs,
          rest.statistics.total_text_extracted + (pySplit otext).length⟩⟩
      else rest

/-- Source `VisualExtractor.async_extract` on the per-page external inputs:
pages are 1-based. -/
def visualExtract (pages : List PageInput) : VisualElems :=
  visualLoop 1 pages

/-! ## `app.py` — source-citation extraction and `ask_question` -/

/-- One step of `re.search(r"page (\d+)", text)`: does the pattern match
at this position?  On a match, group 1 is the maximal digit run. -/
def matchPageAt : List Char → Option Nat
  | p :: a :: g :: e :: sp :: rest =>
    if p = 'p' ∧ a = 'a' ∧ g = 'g' ∧ e = 'e' ∧ sp = ' ' then
      let ds := rest.takeWhile Char.isDigit
      if ds.isEmpty then none else some (digitsToNat ds)
    else none
  | _ => none

/-- Model of `re.search` for the pattern `page (\d+)` with `int(...)` applied to group 1:
the leftmost match wins. -/
def findPageNum : List Char → Option Nat
  | [] => none
  | c :: rest =>
    match matchPageAt (c :: rest) with
    | some n => some n
    | none => findPageNum rest

/-- The source-type chain of `ask_question`. -/
def sourceTypeOf (t : String) : String :=
  if pyStartsWith t "[Table" then "table"
  else if pyStartsWith t "[Graph" then "graph"
  else if pyStartsWith t "[Image" then "image"
  else "text"

/-- A source citation `{type, page, content}`. -/
structure Source where
  type : String
  page : Option Nat
  content : String
  deriving DecidableEq

/-- The per-chunk citation built inside `ask_question` from a retrieved
document's `page_content`. -/
def mkSource (t : String) : Source :=
  ⟨sourceTypeOf t, findPageNum t.data, t⟩

/-- The answer and retrieved documents produced by the conversational
chain (external capability). -/
structure ChainOutput where
  answer : String
  source_documents : List String

/-- The behaviour of the QA chain: either an exception or an output. -/
def ChainFun : Type :=
  String → List (String × String) → Except String ChainOutput

/-- A Python exception as seen by `chat_endpoint`: `ValueError` or any
other exception. -/
inductive PyErr where
  | valueError (msg : String)
  | other (msg : String)
  deriving DecidableEq

/-- The `{answer, sources}` result of `ask_question`. -/
structure QAResult where
  answer : String
  sources : List Source
  deriving DecidableEq

/-- Source `PDFProcessor.ask_question`: raises `ValueError` when no chain has
been created (no document processed); otherwise invokes the chain and maps
every retrieved document to a source citation. -/
def ask_question (chain : Option ChainFun) (question : String)
    (chat_history : List (String × String)) : Except PyErr QAResult :=
  match chain with
  | none => .error (.valueError "No PDF has been processed yet. Please upload a PDF first.")
  | some f =>
    match f question chat_history with
    | .error m => .error (.other m)
    | .ok out => .ok ⟨out.answer, out.source_documents.map mkSource⟩

/-! ## `server.py` — the `/chat` endpoint -/

/-- The HTTP-level result of `chat_endpoint`. -/
inductive EndpointResult where
  | ok (r : QAResult)
  | httpError (status : Nat) (detail : String)
  deriving DecidableEq

/-- Source `chat_endpoint`: empty (stripped) questions get a 400; a `ValueError`
from `ask_question` becomes a 400 with the error text; any other
exception becomes a 500. -/
def chat_endpoint (chain : Option ChainFun) (hist : List (String × String))
    (payload_question : String) : EndpointResult :=
  let question := pyStrip payload_question
  if question = "" then .httpError 400 "Question cannot be empty."
  else
    match ask_question chain question hist with
    | .ok r => .ok r
    | .error (.valueError m) => .httpError 400 m
    | .error (.other m) => .httpError 500 m

/-! ## Specification-side definitions

These follow the wording of the specification and of the claims, for the
refinement comparisons; they are deliberately written independently of the
source translation above. -/

/-- Adjacent character pairs of a string. -/
def adjPairs (l : String) : List (Char × Char) :=
  l.data.zip l.data.tail

/-- Phrase "contains a digit (from the given set) immediately followed by a
period", as worded by the claim. -/
def specDigitDot (digits : List Char) (l : String) : Bool :=
  (adjPairs l).any (fun p => digits.contains p.1 && p.2 == '.')

/-- Phrase "its first character is an uppercase letter". -/
def headUpper (l : String) : Bool :=
  (l.data.headD ' ').isUpper

/-- The heading predicate as worded by claim C4: at most 10
whitespace-separated words and at least one of — fully uppercase,
title-case, a digit from `digits` immediately followed by a period, ends
with a colon, or shorter than 100 characters with an uppercase first
letter. -/
def specIsHeading (digits : List Char) (l : String) : Bool :=
  (pySplit l).length ≤ 10 &&
    (pyIsUpper l || pyIsTitle l || specDigitDot digits l || pyEndsWith l ":" ||
      (l.length < 100 && headUpper l))

/-- The graph-sub-type rule as worded by the specification and claim C8:
the mean spacing between the `n` adjacent coordinate pairs is the sum of
the `n - 1` adjacent absolute differences divided by `n - 1`. -/
def specGraphType (horizontal vertical : List Seg) : String :=
  let vMean := ((vertical.zip vertical.tail).map
    (fun p => |(p.1.x1 : ℚ) - (p.2.x1 : ℚ)|)).sum / ((vertical.length : ℚ) - 1)
  let hMean := ((horizontal.zip horizontal.tail).map
    (fun p => |(p.1.y1 : ℚ) - (p.2.y1 : ℚ)|)).sum / ((horizontal.length : ℚ) - 1)
  if |vMean - hMean| < 10 then "grid_chart"
  else if horizontal.length < vertical.length then "bar_chart"
  else "line_graph"

/-! ## Basic lemmas about the string model -/

/-- A string is empty iff its character list is. -/
theorem str_eq_empty_iff (s : String) : s = "" ↔ s.data = [] :=
  ⟨fun h => by rw [h], fun h => String.ext h⟩

/-- Stripping is idempotent, as for Python `str.strip()`. -/
theorem stripChars_idem (l : List Char) :
    stripChars (stripChars l) = stripChars l := by
  unfold stripChars
  set p := Char.isWhitespace with hp
  set m := l.dropWhile p with hm
  set k := m.reverse.dropWhile p with hk
  have hsuf : k <:+ m.reverse := by rw [hk]; exact List.dropWhile_suffix p
  have hpre : k.reverse <+: m := by
    have h2 : k.reverse.reverse <:+ m.reverse := by
      rw [List.reverse_reverse]
      exact hsuf
    exact List.reverse_suffix.mp h2
  have hmself : m.dropWhile p = m := by rw [hm]; exact List.dropWhile_idempotent p l
  have hr : k.reverse.dropWhile p = k.reverse := by
    obtain ⟨t, ht⟩ := hpre
    cases hkr : k.reverse with
    | nil => simp
    | cons a r =>
      have hma : m = a :: (r ++ t) := by rw [← ht, hkr]; simp
      have hpa : p a = false := by
        by_contra hcon
        have hpa' : p a = true := by
          cases hpab : p a
          · exact absurd hpab hcon
          · rfl
        have : (a :: (r ++ t)).dropWhile p = a :: (r ++ t) := by rw [← hma, hmself, hma]
        rw [List.dropWhile_cons, if_pos hpa'] at this
        have hlen := congrArg List.length this
        have hle : ((r ++ t).dropWhile p).length ≤ (r ++ t).length :=
          (List.dropWhile_suffix p).length_le
        simp [List.length_append] at hlen hle
        omega
      rw [List.dropWhile_cons, if_neg (by simp [hpa])]
  rw [hr, List.reverse_reverse, hk, List.dropWhile_idempotent]

/-- Idempotence of `pyStrip`. -/
theorem pyStrip_idem (s : String) : pyStrip (pyStrip s) = pyStrip s := by
  unfold pyStrip
  exact String.ext (by simp [stripChars_idem])

/-- The heading body only raises (returns `none`) on the empty string. -/
theorem headingBody_isSome (l : String) (h : l ≠ "") :
    (headingBody l).isSome := by
  have hd : l.data ≠ [] := fun hh => h ((str_eq_empty_iff l).mpr hh)
  obtain ⟨c, cs, hc⟩ := List.exists_cons_of_ne_nil hd
  unfold headingBody
  rw [hc]
  split_ifs <;> simp

/-- The heading body on the empty string models the `IndexError`. -/
theorem headingBody_empty : headingBody "" = none := by decide

/-- Characterization of when `_is_heading` returns without raising. -/
theorem pyIsHeading_isSome_iff (s : String) :
    (pyIsHeading s).isSome ↔ (s = "" ∨ pyStrip s ≠ "") := by
  unfold pyIsHeading
  by_cases hs : s = ""
  · simp [hs]
  · rw [if_neg hs]
    constructor
    · intro h
      refine Or.inr fun hst => ?_
      rw [hst, headingBody_empty] at h
      simp at h
    · intro h
      rcases h with h | h
      · exact absurd h hs
      · exact headingBody_isSome _ h

/-! ## Claim C2 -/

/-- C2 counterexample: on the whitespace-only string `" "`, `_is_heading`
raises an `IndexError` (modelled by `none`) because the stripped line is
empty, the earlier disjuncts are all false, and `line[0]` is evaluated —
so `_is_heading` is not total on every input string, refuting C2 as
stated. -/
theorem c2_counterexample : pyIsHeading " " = none := by decide

/-- C2 amended: `_is_heading` returns `False` on the empty string, and it
returns a boolean without raising exactly on the strings that are empty or
contain some non-whitespace character; on non-empty all-whitespace input
it raises `IndexError`.  (Determinism is inherent: the function is pure in
its argument.) -/
theorem c2_is_heading_totality :
    pyIsHeading "" = some false ∧
      ∀ s : String, (pyIsHeading s).isSome ↔ (s = "" ∨ pyStrip s ≠ "") :=
  ⟨by decide, pyIsHeading_isSome_iff⟩

/-! ## Claims C1 and C6 (Table Structurer) -/

/-- A raw grid is emitted as a Table Record iff it has at least one row
and the LLM step on its normalized text reports success. -/
def tableEmitted (llm : String → LlmOutcome) (t : Grid) : Bool :=
  !t.isEmpty && (processTableWithLLM (formatTableForLLM t) (llm (formatTableForLLM t))).success

/-- Record count of the inner loop of `async_extract` over one page. -/
theorem pageTables_length (llm : String → LlmOutcome) (pn : Nat) :
    ∀ (tn : Nat) (pts : List Grid),
      (pageTables llm pn tn pts).length = pts.countP (tableEmitted llm) := by
  intro tn pts
  induction pts generalizing tn with
  | nil => rfl
  | cons t ts ih =>
    unfold pageTables
    rw [List.countP_cons]
    by_cases he : t.isEmpty
    · have hemit : tableEmitted llm t = false := by simp [tableEmitted, he]
      simp [he, ih, hemit]
    · by_cases hs :
        (processTableWithLLM (formatTableForLLM t) (llm (formatTableForLLM t))).success
      · have hemit : tableEmitted llm t = true := by simp [tableEmitted, he, hs]
        simp [he, hs, ih, hemit]
      · have hemit : tableEmitted llm t = false := by simp [tableEmitted, he, hs]
        simp [he, hs, ih, hemit]

/-- Record count of the page loop of `async_extract`. -/
theorem tablesOfPages_length (llm : String → LlmOutcome) :
    ∀ (pn : Nat) (pages : List (List Grid)),
      (tablesOfPages llm pn pages).length =
        (pages.map (fun pts => pts.countP (tableEmitted llm))).sum := by
  intro pn pages
  induction pages generalizing pn with
  | nil => rfl
  | cons p ps ih =>
    unfold tablesOfPages
    rw [List.length_append, pageTables_length, List.map_cons, List.sum_cons, ih]

/-- C1 counterexample: a document whose only raw table is a 3×2 grid of
empty strings yields one Table Record (with an LLM reply that is not valid
JSON), not an empty table list: `if not table` only skips grids with no
rows, and all-blank rows are dropped only from the normalized text. -/
theorem c1_counterexample :
    (asyncExtractTables (fun _ => LlmOutcome.reply none)
      [[[[some "", some ""], [some "", some ""], [some "", some ""]]]]).length = 1 := by
  rfl

/-- C1 amended: `async_extract` emits exactly one Table Record per raw
grid that has at least one row (blank or not) and whose LLM step reports
success (which includes non-JSON replies, via the fallback; only an
exception in the LLM call drops a table); grids with no rows are skipped.
In particular an all-blank non-empty grid still yields a record, so the
record count is the number of non-empty successfully processed grids. -/
theorem c1_table_record_count (llm : String → LlmOutcome) (pages : List (List Grid)) :
    (asyncExtractTables llm pages).length =
      (pages.map (fun pts => pts.countP (tableEmitted llm))).sum :=
  tablesOfPages_length llm 1 pages

/-- C6: when the model reply is not valid JSON, `_process_table_with_llm`
still reports success and returns the fallback
`{raw_text: table_text, rows: table_text.split("\n")}`, and the table is
not dropped: a one-page document whose only raw table is a non-empty grid
whose LLM reply fails to parse yields exactly that table with the fallback
structured data. -/
theorem c6_json_fallback :
    (∀ s : String,
      processTableWithLLM s (LlmOutcome.reply none) =
        ⟨true, SData.fallback s (pySplitOnChar '\n' s)⟩) ∧
    ∀ grid : Grid, grid ≠ [] →
      asyncExtractTables (fun _ => LlmOutcome.reply none) [[grid]] =
        [{ page_number := 1, table_number := 1,
           structured_data := SData.fallback (formatTableForLLM grid)
             (pySplitOnChar '\n' (formatTableForLLM grid)),
           row_count := grid.length,
           column_count := (grid.headD []).length }] := by
  constructor
  · intro s; rfl
  · intro g hg
    have he : g.isEmpty = false := by
      cases g with
      | nil => exact absurd rfl hg
      | cons r rs => rfl
    unfold asyncExtractTables tablesOfPages pageTables
    simp [he, processTableWithLLM, tablesOfPages, pageTables]

/-- C6 witness: the fallback path evaluated on a concrete one-table
document. -/
theorem c6_witness :
    ([[some "a", none]] : Grid) ≠ [] ∧
      asyncExtractTables (fun _ => LlmOutcome.reply none) [[[[some "a", none]]]] =
        [{ page_number := 1, table_number := 1,
           structured_data := SData.fallback (formatTableForLLM [[some "a", none]])
             (pySplitOnChar '\n' (formatTableForLLM [[some "a", none]])),
           row_count := ([[some "a", none]] : Grid).length,
           column_count := (([[some "a", none]] : Grid).headD []).length }] :=
  ⟨by decide, c6_json_fallback.2 [[some "a", none]] (by decide)⟩

/-! ## Claim C3 (source-citation extraction) -/

/-- C3 counterexample: a chunk with no bracketed `[...]` prefix does get
source type `"text"`, but its page is not always null — the `page (\d+)`
pattern is searched in the whole chunk text, so `"see page 5"` yields
page 5, refuting the "page null" half of C3 as stated. -/
theorem c3_counterexample :
    mkSource "see page 5" =
      { type := "text", page := some 5, content := "see page 5" } := by
  rfl

/-- C3 amended: a chunk beginning `"[Table on page 7]"` yields type
`"table"` and page 7; a chunk beginning `"[Graph on page 3]"` yields type
`"graph"` and page 3; a chunk starting with none of `"[Table"`, `"[Graph"`,
`"[Image"` yields type `"text"` and as page the leftmost `page (\d+)`
match in its text — null only if that pattern is absent. -/
theorem c3_source_citations :
    (∀ rest : String,
      mkSource ("[Table on page 7]" ++ rest) =
        { type := "table", page := some 7, content := "[Table on page 7]" ++ rest }) ∧
    (∀ rest : String,
      mkSource ("[Graph on page 3]" ++ rest) =
        { type := "graph", page := some 3, content := "[Graph on page 3]" ++ rest }) ∧
    (∀ t : String, pyStartsWith t "[Table" = false → pyStartsWith t "[Graph" = false →
      pyStartsWith t "[Image" = false →
      mkSource t = { type := "text", page := findPageNum t.data, content := t }) := by
  refine ⟨fun rest => rfl, fun rest => rfl, fun t h1 h2 h3 => ?_⟩
  unfold mkSource sourceTypeOf
  rw [h1, h2, h3]
  simp

/-- C3 witness: the text case evaluated on a concrete chunk. -/
theorem c3_witness :
    pyStartsWith "hello" "[Table" = false ∧
      mkSource "hello" =
        { type := "text", page := findPageNum "hello".data, content := "hello" } :=
  ⟨by decide, c3_source_citations.2.2 "hello" (by decide) (by decide) (by decide)⟩

/-! ## Claim C9 (not-ready error) -/

/-- C9: with no processed document (no QA chain), `ask_question` raises
the recoverable `ValueError` "not ready" message — it neither answers nor
raises anything else — and `chat_endpoint` maps it to an HTTP 400 with
that message for any non-empty question. -/
theorem c9_not_ready :
    (∀ (q : String) (hist : List (String × String)),
      ask_question none q hist =
        .error (.valueError "No PDF has been processed yet. Please upload a PDF first.")) ∧
    ∀ (q : String) (hist : List (String × String)), pyStrip q ≠ "" →
      chat_endpoint none hist q =
        .httpError 400 "No PDF has been processed yet. Please upload a PDF first." := by
  refine ⟨fun q hist => rfl, fun q hist h => ?_⟩
  unfold chat_endpoint
  rw [if_neg h]
  rfl

/-- C9 witness: the not-ready path on a concrete question. -/
theorem c9_witness :
    pyStrip "What is this about?" ≠ "" ∧
      chat_endpoint none [] "What is this about?" =
        .httpError 400 "No PDF has been processed yet. Please upload a PDF first." :=
  ⟨by decide, c9_not_ready.2 "What is this about?" [] (by decide)⟩

/-! ## Claims C7, C8 and C10 (Visual Structurer) -/

/-- Unfolding the visual page loop on a graph page. -/
theorem visualLoop_cons_graph (n : Nat) (q : PageInput) (ps : List PageInput)
    (gd : GraphData) (hd : detectAndProcessGraph q.houghLines = some gd) :
    visualLoop n (q :: ps) =
      ⟨(visualLoop (n + 1) ps).images,
       ⟨n, gd, extractTextFromRegion q.graphOcr, gd.graph_type⟩ ::
         (visualLoop (n + 1) ps).graphs,
       ⟨(visualLoop (n + 1) ps).statistics.total_images,
        (visualLoop (n + 1) ps).statistics.total_graphs + 1,
        (visualLoop (n + 1) ps).statistics.total_text_extracted +
          (pySplit (extractTextFromRegion q.graphOcr)).length⟩⟩ := by
  conv_lhs => rw [visualLoop]
  rw [hd]

/-- Unfolding the visual page loop on an image page with non-blank OCR. -/
theorem visualLoop_cons_image (n : Nat) (q : PageInput) (ps : List PageInput)
    (hd : detectAndProcessGraph q.houghLines = none)
    (ho : pyStrip (extractTextFromRegion q.textOcr) ≠ "") :
    visualLoop n (q :: ps) =
      ⟨⟨n, extractTextFromRegion q.textOcr,
         (pySplit (extractTextFromRegion q.textOcr)).length⟩ ::
         (visualLoop (n + 1) ps).images,
       (visualLoop (n + 1) ps).graphs,
       ⟨(visualLoop (n + 1) ps).statistics.total_images + 1,
        (visualLoop (n + 1) ps).statistics.total_graphs,
        (visualLoop (n + 1) ps).statistics.total_text_extracted +
          (pySplit (extractTextFromRegion q.textOcr)).length⟩⟩ := by
  conv_lhs => rw [visualLoop]
  rw [hd]
  simp [ho]

/-- Unfolding the visual page loop on a page recorded as nothing. -/
theorem visualLoop_cons_skip (n : Nat) (q : PageInput) (ps : List PageInput)
    (hd : detectAndProcessGraph q.houghLines = none)
    (ho : pyStrip (extractTextFromRegion q.textOcr) = "") :
    visualLoop n (q :: ps) = visualLoop (n + 1) ps := by
  conv_lhs => rw [visualLoop]
  rw [hd]
  simp [ho]

/-- A graph-classified page always contributes a graph record carrying its
1-based page number. -/
theorem graph_page_mem :
    ∀ (ps : List PageInput) (n j : Nat) (p : PageInput) (gd : GraphData),
      ps.get? j = some p → detectAndProcessGraph p.houghLines = some gd →
      (⟨n + j, gd, extractTextFromRegion p.graphOcr, gd.graph_type⟩ : GraphRecord) ∈
        (visualLoop n ps).graphs := by
  intro ps
  induction ps with
  | nil => intro n j p gd hj; simp at hj
  | cons q qs ih =>
    intro n j p gd hj hq
    cases j with
    | zero =>
      have hqp : q = p := by simpa using hj
      subst hqp
      rw [visualLoop_cons_graph n q qs gd hq]
      simp
    | succ j' =>
      have hj' : qs.get? j' = some p := by simpa using hj
      have hmem := ih (n + 1) j' p gd hj' hq
      have harith : n + (j' + 1) = (n + 1) + j' := by omega
      rw [harith]
      cases hd : detectAndProcessGraph q.houghLines with
      | some gd' =>
        rw [visualLoop_cons_graph n q qs gd' hd]
        exact List.mem_cons_of_mem _ hmem
      | none =>
        by_cases ho : pyStrip (extractTextFromRegion q.textOcr) = ""
        · rw [visualLoop_cons_skip n q qs hd ho]
          exact hmem
        · rw [visualLoop_cons_image n q qs hd ho]
          exact hmem

/-- Every recorded image record comes from a page on which graph detection
failed and whose OCR text is non-blank after trimming. -/
theorem image_page_mem :
    ∀ (ps : List PageInput) (n : Nat) (im : ImageRecord),
      im ∈ (visualLoop n ps).images →
      ∃ j p, ps.get? j = some p ∧ im.page_number = n + j ∧
        detectAndProcessGraph p.houghLines = none ∧
        im.extracted_text = extractTextFromRegion p.textOcr ∧
        pyStrip (extractTextFromRegion p.textOcr) ≠ "" := by
  intro ps
  induction ps with
  | nil => intro n im h; simp [visualLoop] at h
  | cons q qs ih =>
    intro n im h
    cases hd : detectAndProcessGraph q.houghLines with
    | some gd =>
      rw [visualLoop_cons_graph n q qs gd hd] at h
      obtain ⟨j, p, h1, h2, h3, h4, h5⟩ := ih (n + 1) im h
      exact ⟨j + 1, p, by simpa using h1, by omega, h3, h4, h5⟩
    | none =>
      by_cases ho : pyStrip (extractTextFromRegion q.textOcr) = ""
      · rw [visualLoop_cons_skip n q qs hd ho] at h
        obtain ⟨j, p, h1, h2, h3, h4, h5⟩ := ih (n + 1) im h
        exact ⟨j + 1, p, by simpa using h1, by omega, h3, h4, h5⟩
      · rw [visualLoop_cons_image n q qs hd ho] at h
        rcases List.mem_cons.mp h with hhead | htail
        · subst hhead
          exact ⟨0, q, by simp, by simp, hd, rfl, ho⟩
        · obtain ⟨j, p, h1, h2, h3, h4, h5⟩ := ih (n + 1) im htail
          exact ⟨j + 1, p, by simpa using h1, by omega, h3, h4, h5⟩

/-- C7: a page whose detected lines classify into at least two horizontal
and at least two vertical segments is recorded as a graph for that page and
never as a plain image; and a page whose OCR output is empty after trimming
is never recorded as an Image element. -/
theorem c7_graph_never_image :
    (∀ (pages : List PageInput) (i : Nat) (p : PageInput) (ls : List Seg),
      pages.get? i = some p → p.houghLines = some ls →
      2 ≤ (classifyLines ls).1.length → 2 ≤ (classifyLines ls).2.length →
      (∃ g ∈ (visualExtract pages).graphs, g.page_number = i + 1) ∧
        ∀ im ∈ (visualExtract pages).images, im.page_number ≠ i + 1) ∧
    ∀ (pages : List PageInput) (i : Nat) (p : PageInput),
      pages.get? i = some p → pyStrip (extractTextFromRegion p.textOcr) = "" →
      ∀ im ∈ (visualExtract pages).images, im.page_number ≠ i + 1 := by
  constructor
  · intro pages i p ls hget hls h2h h2v
    have hdet : detectAndProcessGraph p.houghLines =
        some ⟨determineGraphType (classifyLines ls).1 (classifyLines ls).2,
          (classifyLines ls).1.length, (classifyLines ls).2.length⟩ := by
      rw [hls]
      simp only [detectAndProcessGraph]
      rw [if_pos ⟨h2h, h2v⟩]
    constructor
    · refine ⟨_, graph_page_mem pages 1 i p _ hget hdet, ?_⟩
      show 1 + i = i + 1
      omega
    · intro im hmem hpage
      obtain ⟨j, p', h1, h2, h3, _, _⟩ := image_page_mem pages 1 im hmem
      have hji : j = i := by omega
      subst hji
      rw [hget] at h1
      injection h1 with h1
      subst h1
      rw [hdet] at h3
      exact Option.noConfusion h3
  · intro pages i p hget hocr im hmem hpage
    obtain ⟨j, p', h1, h2, _, _, h5⟩ := image_page_mem pages 1 im hmem
    have hji : j = i := by omega
    subst hji
    rw [hget] at h1
    injection h1 with h1
    subst h1
    exact h5 hocr

/-- C7 witness: one page with two horizontal (angle 0) and two vertical
(angle 90) detected lines is recorded as a graph on page 1 and never as an
image. -/
theorem c7_witness :
    ([⟨some [⟨0, 0, 10, 0, 0⟩, ⟨0, 5, 10, 5, 0⟩, ⟨0, 0, 0, 10, 90⟩, ⟨7, 0, 7, 10, 90⟩],
        some "A B", some "x"⟩] : List PageInput).get? 0 =
      some ⟨some [⟨0, 0, 10, 0, 0⟩, ⟨0, 5, 10, 5, 0⟩, ⟨0, 0, 0, 10, 90⟩, ⟨7, 0, 7, 10, 90⟩],
        some "A B", some "x"⟩ ∧
    (∃ g ∈ (visualExtract [⟨some [⟨0, 0, 10, 0, 0⟩, ⟨0, 5, 10, 5, 0⟩,
        ⟨0, 0, 0, 10, 90⟩, ⟨7, 0, 7, 10, 90⟩], some "A B", some "x"⟩]).graphs,
      g.page_number = 0 + 1) ∧
    ∀ im ∈ (visualExtract [⟨some [⟨0, 0, 10, 0, 0⟩, ⟨0, 5, 10, 5, 0⟩,
        ⟨0, 0, 0, 10, 90⟩, ⟨7, 0, 7, 10, 90⟩], some "A B", some "x"⟩]).images,
      im.page_number ≠ 0 + 1 :=
  ⟨by decide,
    c7_graph_never_image.1
      [⟨some [⟨0, 0, 10, 0, 0⟩, ⟨0, 5, 10, 5, 0⟩, ⟨0, 0, 0, 10, 90⟩, ⟨7, 0, 7, 10, 90⟩],
        some "A B", some "x"⟩]
      0
      ⟨some [⟨0, 0, 10, 0, 0⟩, ⟨0, 5, 10, 5, 0⟩, ⟨0, 0, 0, 10, 90⟩, ⟨7, 0, 7, 10, 90⟩],
        some "A B", some "x"⟩
      [⟨0, 0, 10, 0, 0⟩, ⟨0, 5, 10, 5, 0⟩, ⟨0, 0, 0, 10, 90⟩, ⟨7, 0, 7, 10, 90⟩]
      (by decide) (by decide) (by decide) (by decide)⟩

/-- C8: for at least two horizontal and two vertical lines (the only call
context of `_determine_graph_type`), the computed type agrees with the
specification's rule: the mean adjacent `x1` spacing of vertical lines and
the mean adjacent `y1` spacing of horizontal lines (sums of the `n - 1`
absolute differences divided by `n - 1`, exact rational arithmetic) differ
by less than 10 → `grid_chart`; otherwise more vertical than horizontal
lines → `bar_chart`; otherwise `line_graph`.  Exceptions cannot arise in
this pure computation, matching the vacuity of the source's handler. -/
theorem c8_graph_type (h v : List Seg) (hh : 2 ≤ h.length) (hv : 2 ≤ v.length) :
    determineGraphType h v = specGraphType h v := by
  unfold determineGraphType specGraphType
  have e1 : (((v.zip v.tail).map (fun p => |(p.1.x1 : ℚ) - (p.2.x1 : ℚ)|)).length : ℚ)
      = (v.length : ℚ) - 1 := by
    rw [List.length_map, List.length_zip, List.length_tail,
      min_eq_right (by omega : v.length - 1 ≤ v.length),
      Nat.cast_sub (by omega : 1 ≤ v.length)]
    norm_num
  have e2 : (((h.zip h.tail).map (fun p => |(p.1.y1 : ℚ) - (p.2.y1 : ℚ)|)).length : ℚ)
      = (h.length : ℚ) - 1 := by
    rw [List.length_map, List.length_zip, List.length_tail,
      min_eq_right (by omega : h.length - 1 ≤ h.length),
      Nat.cast_sub (by omega : 1 ≤ h.length)]
    norm_num
  dsimp only
  rw [e1, e2]

/-- C8 witness: two horizontal lines 5 apart and two vertical lines 7
apart classify identically under the source computation and the
specification rule. -/
theorem c8_witness :
    2 ≤ ([⟨0, 0, 10, 0, 0⟩, ⟨0, 5, 10, 5, 0⟩] : List Seg).length ∧
      determineGraphType [⟨0, 0, 10, 0, 0⟩, ⟨0, 5, 10, 5, 0⟩]
          [⟨0, 0, 0, 10, 90⟩, ⟨7, 0, 7, 10, 90⟩] =
        specGraphType [⟨0, 0, 10, 0, 0⟩, ⟨0, 5, 10, 5, 0⟩]
          [⟨0, 0, 0, 10, 90⟩, ⟨7, 0, 7, 10, 90⟩] :=
  ⟨by decide, c8_graph_type _ _ (by decide) (by decide)⟩

/-- The statistics invariant of the visual page loop. -/
theorem visualLoop_stats (n : Nat) (ps : List PageInput) :
    (visualLoop n ps).statistics.total_graphs = (visualLoop n ps).graphs.length ∧
    (visualLoop n ps).statistics.total_images = (visualLoop n ps).images.length ∧
    (visualLoop n ps).statistics.total_text_extracted =
      ((visualLoop n ps).graphs.map (fun g => (pySplit g.extracted_text).length)).sum +
        ((visualLoop n ps).images.map (fun im => (pySplit im.extracted_text).length)).sum := by
  induction ps generalizing n with
  | nil => exact ⟨rfl, rfl, rfl⟩
  | cons q qs ih =>
    obtain ⟨ih1, ih2, ih3⟩ := ih (n + 1)
    cases hd : detectAndProcessGraph q.houghLines with
    | some gd =>
      rw [visualLoop_cons_graph n q qs gd hd]
      refine ⟨by simp [ih1], by simp [ih2], ?_⟩
      simp only [List.map_cons, List.sum_cons]
      omega
    | none =>
      by_cases ho : pyStrip (extractTextFromRegion q.textOcr) = ""
      · rw [visualLoop_cons_skip n q qs hd ho]
        exact ⟨ih1, ih2, ih3⟩
      · rw [visualLoop_cons_image n q qs hd ho]
        refine ⟨by simp [ih1], by simp [ih2], ?_⟩
        simp only [List.map_cons, List.sum_cons]
        omega

/-- C10: in every `VisualExtractor.async_extract` result,
`total_graphs` is the number of recorded graphs, `total_images` the number
of recorded images, and `total_text_extracted` the sum of the
whitespace-split word counts of all recorded extracted texts. -/
theorem c10_visual_statistics (pages : List PageInput) :
    (visualExtract pages).statistics.total_graphs = (visualExtract pages).graphs.length ∧
    (visualExtract pages).statistics.total_images = (visualExtract pages).images.length ∧
    (visualExtract pages).statistics.total_text_extracted =
      ((visualExtract pages).graphs.map
        (fun g => (pySplit g.extracted_text).length)).sum +
        ((visualExtract pages).images.map
          (fun im => (pySplit im.extracted_text).length)).sum :=
  visualLoop_stats 1 pages

/-! ## Claim C4 (heading predicate) -/

/-- Substring occurrence of a two-character pattern `c.` is the same as an
adjacent character pair `(c, '.')`. -/
theorem containsSub_pair (c : Char) (l : List Char) :
    containsSub l [c, '.'] = true ↔ ∃ p ∈ l.zip l.tail, p.1 = c ∧ p.2 = '.' := by
  induction l with
  | nil => simp [containsSub]
  | cons a t iht =>
    cases t with
    | nil => simp [containsSub, List.isPrefixOf]
    | cons b t' =>
      rw [show containsSub (a :: b :: t') [c, '.']
            = ([c, '.'].isPrefixOf (a :: b :: t') || containsSub (b :: t') [c, '.']) from rfl]
      simp only [List.isPrefixOf, Bool.or_eq_true, Bool.and_eq_true, beq_iff_eq,
        List.tail_cons, List.zip_cons_cons, List.mem_cons] at iht ⊢
      rw [iht]
      constructor
      · rintro (⟨h1, h2, _⟩ | ⟨p, hp, h1, h2⟩)
        · exact ⟨(a, b), Or.inl rfl, h1.symm, h2.symm⟩
        · exact ⟨p, Or.inr hp, h1, h2⟩
      · rintro ⟨p, hp | hp, h1, h2⟩
        · subst hp
          exact Or.inl ⟨h1.symm, h2.symm, trivial⟩
        · exact Or.inr ⟨p, hp, h1, h2⟩

/-- The source's digit-dot test over `"123456789"` equals the
specification wording for the digit set 1–9. -/
theorem digitDotCheck_eq_spec (l : String) :
    digitDotCheck l = specDigitDot "123456789".data l := by
  rw [← Bool.coe_iff_coe]
  unfold digitDotCheck specDigitDot pyContainsStr adjPairs
  simp only [List.any_eq_true, Bool.and_eq_true, beq_iff_eq]
  constructor
  · rintro ⟨c, hc, _, hsub⟩
    obtain ⟨p, hp, h1, h2⟩ := (containsSub_pair c l.data).mp hsub
    refine ⟨p, hp, ?_, h2⟩
    rw [List.contains_iff_exists_mem_beq]
    exact ⟨c, hc, by simp [h1]⟩
  · rintro ⟨p, hp, hmem, hdot⟩
    rw [List.contains_iff_exists_mem_beq] at hmem
    obtain ⟨c, hc, hbeq⟩ := hmem
    have hpc : p.1 = c := by simpa using hbeq
    have hdig : ∀ x ∈ ("123456789".data), x.isDigit = true := by decide
    exact ⟨c, hc, hdig c hc, (containsSub_pair c l.data).mpr ⟨p, hp, hpc, hdot⟩⟩

/-- The heading body agrees with the claim wording restricted to the
digits 1–9, on non-empty (stripped) lines. -/
theorem headingBody_eq_spec (l : String) (hl : l ≠ "") :
    headingBody l = some (specIsHeading "123456789".data l) := by
  obtain ⟨c, cs, hc⟩ :=
    List.exists_cons_of_ne_nil (fun hh => hl ((str_eq_empty_iff l).mpr hh))
  have hhu : headUpper l = c.isUpper := by
    unfold headUpper
    rw [hc]
    rfl
  unfold headingBody specIsHeading
  rw [digitDotCheck_eq_spec, hhu, hc]
  simp only [List.head?_cons]
  split_ifs <;> simp_all

/-- C4 counterexample: the line `"x 0."` contains the digit `0`
immediately followed by a period and has at most 10 words, so the claim
classifies it as a heading; the source only tests the digits 1–9, so
`_is_heading` returns `False`. -/
theorem c4_counterexample :
    specIsHeading "0123456789".data "x 0." = true ∧ pyIsHeading "x 0." = some false := by
  decide

/-- C4 amended: for every line containing a non-whitespace character,
`_is_heading` returns (without raising) exactly the claim's decision
evaluated on the stripped line, with the digit-followed-by-period disjunct
restricted to the digits 1–9: at most 10 whitespace-separated words and at
least one of — fully uppercase, title-case, a digit 1–9 immediately
followed by a period, ends with a colon, or shorter than 100 characters
with an uppercase first character. -/
theorem c4_heading_iff (s : String) (hs : pyStrip s ≠ "") :
    pyIsHeading s = some (specIsHeading "123456789".data (pyStrip s)) := by
  have h0 : pyStrip "" = "" := by decide
  have hsne : s ≠ "" := fun h => hs (by rw [h]; exact h0)
  unfold pyIsHeading
  rw [if_neg hsne]
  exact headingBody_eq_spec (pyStrip s) hs

/-- C4 witness: the amended equivalence on a concrete heading line. -/
theorem c4_witness :
    pyStrip "Summary:" ≠ "" ∧
      pyIsHeading "Summary:" =
        some (specIsHeading "123456789".data (pyStrip "Summary:")) :=
  ⟨by decide, c4_heading_iff "Summary:" (by decide)⟩

/-! ## Claim C5 (paragraph buffering) -/

/-- One-step unfolding of the page line loop. -/
theorem stepPage_cons (l : String) (ls buf : List String) :
    stepPage (l :: ls) buf =
      if pyStrip l = "" then
        (stepPage ls []).map (fun p => (flushBuf buf ++ p.1, p.2))
      else
        match pyIsHeading (pyStrip l) with
        | none => none
        | some true =>
            (stepPage ls []).map
              (fun p =>
                (flushBuf buf ++
                  Block.heading (pyStrip l) (headingLevel (pyStrip l)) :: p.1, p.2))
        | some false => stepPage ls (buf ++ [pyStrip l]) := rfl

/-- The loop on a blank line: flush, then continue with an empty buffer. -/
theorem stepPage_cons_blank (l : String) (ls buf : List String)
    (hb : pyStrip l = "") :
    stepPage (l :: ls) buf =
      (stepPage ls []).map (fun p => (flushBuf buf ++ p.1, p.2)) := by
  rw [stepPage_cons, if_pos hb]

/-- The loop on a heading line: flush, emit the heading, continue empty. -/
theorem stepPage_cons_heading (l : String) (ls buf : List String)
    (hb : pyStrip l ≠ "") (hh : pyIsHeading (pyStrip l) = some true) :
    stepPage (l :: ls) buf =
      (stepPage ls []).map
        (fun p =>
          (flushBuf buf ++
            Block.heading (pyStrip l) (headingLevel (pyStrip l)) :: p.1, p.2)) := by
  rw [stepPage_cons, if_neg hb, hh]

/-- The loop on a body line: append the stripped line to the buffer. -/
theorem stepPage_cons_body (l : String) (ls buf : List String)
    (hb : pyStrip l ≠ "") (hh : pyIsHeading (pyStrip l) = some false) :
    stepPage (l :: ls) buf = stepPage ls (buf ++ [pyStrip l]) := by
  rw [stepPage_cons, if_neg hb, hh]

/-- The line loop never raises: `_is_heading` is only invoked on stripped
non-empty lines, where the `IndexError` branch is unreachable (by
idempotence of stripping). -/
theorem stepPage_isSome (xs : List String) : ∀ buf, (stepPage xs buf).isSome := by
  induction xs with
  | nil => intro buf; rfl
  | cons l ls ih =>
    intro buf
    by_cases hb : pyStrip l = ""
    · rw [stepPage_cons_blank _ _ _ hb]
      obtain ⟨p, hp⟩ := Option.isSome_iff_exists.mp (ih [])
      rw [hp]
      rfl
    · have hsome : (pyIsHeading (pyStrip l)).isSome := by
        unfold pyIsHeading
        rw [if_neg hb, pyStrip_idem]
        exact headingBody_isSome _ hb
      cases hh : pyIsHeading (pyStrip l) with
      | none => rw [hh] at hsome; simp at hsome
      | some b =>
        cases b
        · rw [stepPage_cons_body _ _ _ hb hh]
          exact ih _
        · rw [stepPage_cons_heading _ _ _ hb hh]
          obtain ⟨p, hp⟩ := Option.isSome_iff_exists.mp (ih [])
          rw [hp]
          rfl

/-- Appending line lists composes the page loop, threading the buffer. -/
theorem stepPage_append (xs ys : List String) :
    ∀ buf, stepPage (xs ++ ys) buf =
      (stepPage xs buf).bind
        (fun p => (stepPage ys p.2).map (fun q => (p.1 ++ q.1, q.2))) := by
  induction xs with
  | nil =>
    intro buf
    rw [List.nil_append]
    rw [show stepPage [] buf = some ([], buf) from rfl]
    cases hys : stepPage ys buf <;> simp [hys]
  | cons l ls ih =>
    intro buf
    rw [List.cons_append]
    by_cases hb : pyStrip l = ""
    · rw [stepPage_cons_blank _ _ _ hb, stepPage_cons_blank _ _ _ hb, ih []]
      cases hx : stepPage ls [] with
      | none => simp
      | some p =>
        cases hy : stepPage ys p.2 with
        | none => simp [hy]
        | some q => simp [hy]
    · cases hh : pyIsHeading (pyStrip l) with
      | none =>
        rw [stepPage_cons, if_neg hb, hh, stepPage_cons, if_neg hb, hh]
        rfl
      | some b =>
        cases b
        · rw [stepPage_cons_body _ _ _ hb hh, stepPage_cons_body _ _ _ hb hh, ih _]
        · rw [stepPage_cons_heading _ _ _ hb hh, stepPage_cons_heading _ _ _ hb hh, ih []]
          cases hx : stepPage ls [] with
          | none => simp
          | some p =>
            cases hy : stepPage ys p.2 with
            | none => simp [hy]
            | some q => simp [hy]

/-- A run of non-blank non-heading lines only grows the buffer, in order,
with the stripped lines; it emits no block. -/
theorem stepPage_run (run : List String) :
    (∀ l ∈ run, pyStrip l ≠ "" ∧ pyIsHeading (pyStrip l) = some false) →
      ∀ buf, stepPage run buf = some ([], buf ++ run.map pyStrip) := by
  induction run with
  | nil => intro _ buf; simp [stepPage]
  | cons l ls ih =>
    intro hrun buf
    obtain ⟨hb, hh⟩ := hrun l (List.mem_cons_self l ls)
    rw [stepPage_cons_body _ _ _ hb hh,
      ih (fun x hx => hrun x (List.mem_cons_of_mem _ hx)) (buf ++ [pyStrip l])]
    simp

/-- A line list ending in a blank or heading line (or empty) leaves the
loop with an empty paragraph buffer. -/
theorem stepPage_pre_flushed (pre : List String)
    (h : pre = [] ∨ ∃ d, pre.getLast? = some d ∧
      (pyStrip d = "" ∨ pyIsHeading (pyStrip d) = some true)) :
    ∃ bs, stepPage pre [] = some (bs, []) := by
  rcases h with rfl | ⟨d, hd, hdelim⟩
  · exact ⟨[], rfl⟩
  · have hne : pre ≠ [] := by
      intro h0
      rw [h0] at hd
      simp at hd
    have hgl : pre.getLast hne = d := by
      rw [List.getLast?_eq_getLast pre hne] at hd
      exact Option.some_injective _ hd
    have hdec : pre.dropLast ++ [d] = pre := by
      rw [← hgl]
      exact List.dropLast_append_getLast hne
    rw [← hdec, stepPage_append]
    obtain ⟨p, hp⟩ := Option.isSome_iff_exists.mp (stepPage_isSome pre.dropLast [])
    rw [hp]
    rcases hdelim with hb | hh
    · rw [Option.some_bind, stepPage_cons_blank _ _ _ hb,
        show stepPage [] ([] : List String) = some ([], []) from rfl]
      exact ⟨p.1 ++ flushBuf p.2, by simp⟩
    · have hb : pyStrip d ≠ "" := by
        intro h0
        rw [h0] at hh
        exact absurd hh (by decide)
      rw [Option.some_bind, stepPage_cons_heading _ _ _ hb hh,
        show stepPage [] ([] : List String) = some ([], []) from rfl]
      exact ⟨p.1 ++ (flushBuf p.2 ++
        [Block.heading (pyStrip d) (headingLevel (pyStrip d))]), by simp⟩

/-- Processing a tail that is empty or starts with a blank or heading line
first flushes whatever buffer is pending, then contributes exactly the
blocks the tail would produce on its own page position. -/
theorem stepPage_delim_or_empty (post : List String)
    (h : post = [] ∨ ∃ l t, post = l :: t ∧
      (pyStrip l = "" ∨ pyIsHeading (pyStrip l) = some true)) (buf : List String) :
    ∃ cs P B, processPage post = some cs ∧ stepPage post buf = some (P, B) ∧
      P ++ flushBuf B = flushBuf buf ++ cs := by
  rcases h with rfl | ⟨l, t, rfl, hdelim⟩
  · exact ⟨[], [], buf, rfl, rfl, by simp⟩
  · obtain ⟨q, hq⟩ := Option.isSome_iff_exists.mp (stepPage_isSome t [])
    rcases hdelim with hb | hh
    · refine ⟨q.1 ++ flushBuf q.2, flushBuf buf ++ q.1, q.2, ?_, ?_, by simp⟩
      · unfold processPage
        rw [stepPage_cons_blank _ _ _ hb, hq]
        simp [flushBuf]
      · rw [stepPage_cons_blank _ _ _ hb, hq]
        rfl
    · have hb : pyStrip l ≠ "" := by
        intro h0
        rw [h0] at hh
        exact absurd hh (by decide)
      refine ⟨Block.heading (pyStrip l) (headingLevel (pyStrip l)) ::
          (q.1 ++ flushBuf q.2),
        flushBuf buf ++ Block.heading (pyStrip l) (headingLevel (pyStrip l)) :: q.1,
        q.2, ?_, ?_, by simp⟩
      · unfold processPage
        rw [stepPage_cons_heading _ _ _ hb hh, hq]
        simp [flushBuf]
      · rw [stepPage_cons_heading _ _ _ hb hh, hq]
        rfl

/-- A join of strings starting with a non-empty string is non-empty. -/
theorem pyJoin_ne_empty (sep x : String) (xs : List String) (hx : x ≠ "") :
    pyJoin sep (x :: xs) ≠ "" := by
  cases xs with
  | nil => exact hx
  | cons y t =>
    intro h
    have hdata := congrArg String.data h
    rw [show pyJoin sep (x :: y :: t) = x ++ sep ++ pyJoin sep (y :: t) from rfl,
      String.data_append, String.data_append] at hdata
    simp only [show ("" : String).data = [] from rfl, List.append_eq_nil] at hdata
    exact hx ((str_eq_empty_iff x).mpr hdata.1.1)

/-- Flushing a buffer of non-empty lines yields only non-empty blocks. -/
theorem flushBuf_blocks_ne (buf : List String) (hbuf : ∀ s ∈ buf, s ≠ "") :
    ∀ b ∈ flushBuf buf, blockText b ≠ "" := by
  intro b hb
  unfold flushBuf at hb
  by_cases he : buf.isEmpty
  · rw [if_pos he] at hb
    simp at hb
  · rw [if_neg he] at hb
    simp only [List.mem_singleton] at hb
    subst hb
    cases buf with
    | nil => simp at he
    | cons x t => exact pyJoin_ne_empty " " x t (hbuf x (List.mem_cons_self x t))

/-- The loop never emits a block with empty text and never buffers an
empty line. -/
theorem stepPage_blocks_ne (xs : List String) :
    ∀ buf r, (∀ s ∈ buf, s ≠ "") → stepPage xs buf = some r →
      ((∀ b ∈ r.1, blockText b ≠ "") ∧ ∀ s ∈ r.2, s ≠ "") := by
  induction xs with
  | nil =>
    intro buf r hbuf hr
    rw [show stepPage [] buf = some ([], buf) from rfl] at hr
    injection hr with hr
    subst hr
    exact ⟨by simp, hbuf⟩
  | cons l ls ih =>
    intro buf r hbuf hr
    by_cases hb : pyStrip l = ""
    · rw [stepPage_cons_blank _ _ _ hb] at hr
      obtain ⟨q, hq, hmap⟩ := Option.map_eq_some'.mp hr
      obtain ⟨hq1, hq2⟩ := ih [] q (by simp) hq
      subst hmap
      refine ⟨?_, hq2⟩
      intro b hbm
      rcases List.mem_append.mp hbm with hbm | hbm
      · exact flushBuf_blocks_ne buf hbuf b hbm
      · exact hq1 b hbm
    · cases hh : pyIsHeading (pyStrip l) with
      | none =>
        rw [stepPage_cons, if_neg hb, hh] at hr
        exact Option.noConfusion hr
      | some bb =>
        cases bb
        · rw [stepPage_cons_body _ _ _ hb hh] at hr
          refine ih _ r ?_ hr
          intro s hs
          rcases List.mem_append.mp hs with hs | hs
          · exact hbuf s hs
          · rw [List.mem_singleton] at hs
            subst hs
            exact hb
        · rw [stepPage_cons_heading _ _ _ hb hh] at hr
          obtain ⟨q, hq, hmap⟩ := Option.map_eq_some'.mp hr
          obtain ⟨hq1, hq2⟩ := ih [] q (by simp) hq
          subst hmap
          refine ⟨?_, hq2⟩
          intro b hbm
          rcases List.mem_append.mp hbm with hbm | hbm
          · exact flushBuf_blocks_ne buf hbuf b hbm
          · rcases List.mem_cons.mp hbm with hbm | hbm
            · subst hbm
              exact hb
            · exact hq1 b hbm

/-- C5 counterexample: the page `["  foo", "bar"]` is a single maximal run
of non-blank, non-heading lines, but the emitted paragraph text is
`"foo bar"` — the *stripped* lines joined — not the raw space-join
`"  foo bar"` the claim asserts. -/
theorem c5_counterexample :
    processPage ["  foo", "bar"] = some [Block.paragraph "foo bar"] ∧
      pyJoin " " ["  foo", "bar"] = "  foo bar" ∧
      ("foo bar" : String) ≠ "  foo bar" := by
  decide

/-- C5 amended: for a maximal run of lines that are non-blank after
stripping and not headings (bounded on the left by the page start or a
blank/heading line, and on the right by the page end or a blank/heading
line), the Text Structurer emits exactly one paragraph block — placed
between the blocks of the left part and the blocks of the right part —
whose text is the *stripped* lines joined by single spaces; and no block
(heading or paragraph) ever carries empty text, so blank lines are never
emitted as blocks. -/
theorem c5_paragraph_buffering :
    (∀ pre run post,
      (pre = [] ∨ ∃ d, pre.getLast? = some d ∧
        (pyStrip d = "" ∨ pyIsHeading (pyStrip d) = some true)) →
      run ≠ [] →
      (∀ l ∈ run, pyStrip l ≠ "" ∧ pyIsHeading (pyStrip l) = some false) →
      (post = [] ∨ ∃ l t, post = l :: t ∧
        (pyStrip l = "" ∨ pyIsHeading (pyStrip l) = some true)) →
      ∃ bs cs, stepPage pre [] = some (bs, []) ∧ processPage post = some cs ∧
        processPage (pre ++ run ++ post) =
          some (bs ++ Block.paragraph (pyJoin " " (run.map pyStrip)) :: cs)) ∧
    ∀ lines blocks, processPage lines = some blocks →
      ∀ b ∈ blocks, blockText b ≠ "" := by
  constructor
  · intro pre run post hpre hrunne hrun hpost
    obtain ⟨bs, hbs⟩ := stepPage_pre_flushed pre hpre
    obtain ⟨cs, P, B, hcs, hPB, heq⟩ :=
      stepPage_delim_or_empty post hpost (run.map pyStrip)
    refine ⟨bs, cs, hbs, hcs, ?_⟩
    unfold processPage
    rw [List.append_assoc, stepPage_append, hbs, Option.some_bind,
      stepPage_append, stepPage_run run hrun [], Option.some_bind,
      List.nil_append, hPB]
    have hfr : flushBuf (run.map pyStrip) =
        [Block.paragraph (pyJoin " " (run.map pyStrip))] := by
      unfold flushBuf
      rw [if_neg]
      intro h0
      rw [List.isEmpty_iff] at h0
      exact hrunne (List.map_eq_nil_iff.mp h0)
    simp only [Option.map_some']
    rw [List.nil_append, List.append_assoc, heq, hfr, List.singleton_append]
  · intro lines blocks h
    unfold processPage at h
    obtain ⟨p, hp, hmap⟩ := Option.map_eq_some'.mp h
    obtain ⟨h1, h2⟩ := stepPage_blocks_ne lines [] p (by simp) hp
    subst hmap
    intro b hb
    rcases List.mem_append.mp hb with hb | hb
    · exact h1 b hb
    · exact flushBuf_blocks_ne p.2 h2 b hb

/-- C5 witness: a two-line run with empty left and right parts produces
exactly the single space-joined paragraph. -/
theorem c5_witness :
    (["hello there", "world"] : List String) ≠ [] ∧
      ∃ bs cs, stepPage ([] : List String) [] = some (bs, []) ∧
        processPage ([] : List String) = some cs ∧
        processPage ([] ++ ["hello there", "world"] ++ []) =
          some (bs ++ Block.paragraph
            (pyJoin " " (["hello there", "world"].map pyStrip)) :: cs) :=
  ⟨by decide,
    c5_paragraph_buffering.1 [] ["hello there", "world"] [] (Or.inl rfl)
      (by decide) (by decide) (Or.inl rfl)⟩

end Documind
